import Mathlib

/-!
Shallow embedding of the ore program core: the economic constants
(src/consts.rs), the claim processor (src/processor/claim.rs) and the
registration processor (src/processor/register.rs).

Machine integers are modelled as `Int` (for Rust `i64`) and `Nat` (for
Rust `u64`), with the saturating and checked operations of the source
made explicit.  Account keys and raw account data are byte strings,
modelled as `List Nat`.  Cross-program invocations into the token
program (burn, transfer) are modelled as effects reported in the result
of a successful run; when an instruction returns an error the host
runtime reverts every effect of the instruction atomically, so a failing
run is modelled as leaving the world unchanged.
-/

abbrev Bytes := List Nat

/-- Largest value of a Rust `i64`. -/
def I64_MAX : Int := 9223372036854775807

/-- Smallest value of a Rust `i64`. -/
def I64_MIN : Int := -9223372036854775808

/-- Largest value of a Rust `u64`. -/
def U64_MAX : Nat := 18446744073709551615

/-- Rust `i64::saturating_add`. -/
def satAddI64 (a b : Int) : Int := max I64_MIN (min I64_MAX (a + b))

/-- Rust `i64::saturating_sub`. -/
def satSubI64 (a b : Int) : Int := max I64_MIN (min I64_MAX (a - b))

/-- Rust `u64::saturating_mul`. -/
def satMulU64 (a b : Nat) : Nat := min (a * b) U64_MAX

/-- Rust `u64::saturating_div` (plain floor division; division never
overflows for unsigned operands, and a divisor of zero panics in Rust —
all uses in the source divide by the nonzero constant `ONE_DAY`). -/
def satDivU64 (a b : Nat) : Nat := a / b

/-- Rust `x as u64` applied to an `i64` value: two's-complement
reinterpretation, i.e. reduction modulo 2^64. -/
def castU64 (x : Int) : Nat := (x % (18446744073709551616 : Int)).toNat

/-- Rust `u64::checked_sub`. -/
def checkedSubU64 (a b : Nat) : Option Nat :=
  if b ≤ a then some (a - b) else none

/-! ## Constants (src/consts.rs) -/

/-- The decimal precision of the Ore token (`TOKEN_DECIMALS`). -/
def TOKEN_DECIMALS : Nat := 11

/-- One Ore token, denominated in indivisible units (`ONE_ORE`). -/
def ONE_ORE : Nat := 10 ^ TOKEN_DECIMALS

/-- The duration of one day, in seconds (`ONE_DAY`, an `i64`). -/
def ONE_DAY : Int := 86400

/-- The number of minutes in an Ore epoch (`EPOCH_MINUTES`, an `i64`). -/
def EPOCH_MINUTES : Int := 1

/-- The target quantity of ORE to be mined per epoch
(`TARGET_EPOCH_REWARDS = ONE_ORE.saturating_mul(EPOCH_MINUTES as u64)`). -/
def TARGET_EPOCH_REWARDS : Nat := satMulU64 ONE_ORE (castU64 EPOCH_MINUTES)

/-- The maximum quantity of ORE that can be mined per epoch
(`MAX_EPOCH_REWARDS = TARGET_EPOCH_REWARDS.saturating_mul(5)`). -/
def MAX_EPOCH_REWARDS : Nat := satMulU64 TARGET_EPOCH_REWARDS 5

/-- The number of bus accounts (`BUS_COUNT`). -/
def BUS_COUNT : Nat := 8

/-- The quantity of ORE each bus is allowed to issue per epoch
(`BUS_EPOCH_REWARDS = MAX_EPOCH_REWARDS.saturating_div(BUS_COUNT as u64)`). -/
def BUS_EPOCH_REWARDS : Nat := satDivU64 MAX_EPOCH_REWARDS BUS_COUNT

/-- The seed of proof account PDAs (`PROOF = b"proof"`), as bytes. -/
def PROOF_SEED : Bytes := [112, 114, 111, 111, 102]

/-! ## State (crate::state::Proof)

The proof account layout: a one-byte discriminator (written separately
by `process_register`) followed by the fields below, in order. -/

/-- The miner proof record (`Proof` in crate::state). -/
structure Proof where
  authority : Bytes
  balance : Nat
  challenge : Bytes
  last_hash : Bytes
  last_hash_at : Int
  last_stake_at : Int
  last_claim_at : Int
  total_hashes : Nat
  total_rewards : Nat
  deriving Repr, DecidableEq

/-! ## Claim (src/processor/claim.rs) -/

/-- Errors surfaced by `process_claim`; `ClaimTooLarge` is
`OreError::ClaimTooLarge`, the others are the distinct loader errors. -/
inductive ClaimError where
  | MissingSignature
  | InvalidBeneficiary
  | InvalidMint
  | InvalidTreasury
  | InvalidTreasuryTokens
  | InvalidTokenProgram
  | ClaimTooLarge
  deriving Repr, DecidableEq

/-- The accounts handed to `process_claim`, reduced to what the
instruction inspects.  The source validates each supporting account with
a loader from crate::loaders (code of this repository not under src/);
each loader is modelled from the spec as a Boolean validity flag:
`signerIsSigner` — the authorizing identity is present and has signed
(load_signer); `beneficiaryValid` — the destination is a writable token
account of the Ore mint (load_token_account); `mintValid` — the mint is
the well-known `MINT_ADDRESS` (load_mint); `treasuryValid` — the
treasury singleton (load_treasury); `treasuryTokensValid` — the treasury
vault, a token account of the mint owned by the treasury
(load_token_account); `tokenProgramValid` — the SPL token program
(load_program).  `signerKey` is the signer's public key; note that
`process_claim` reads the proof account directly and never compares
`signerKey` with any field of the proof record. -/
structure ClaimAccounts where
  signerKey : Bytes
  signerIsSigner : Bool
  beneficiaryValid : Bool
  mintValid : Bool
  treasuryValid : Bool
  treasuryTokensValid : Bool
  tokenProgramValid : Bool
  deriving Repr, DecidableEq

/-- The burn amount computed on the burn path of `process_claim`:
`amount.saturating_mul(t.saturating_sub(now) as u64).saturating_div(ONE_DAY as u64)`
where `t = last_claim_at.saturating_add(ONE_DAY)` is passed in. -/
def burnAmount (t now : Int) (amount : Nat) : Nat :=
  satDivU64 (satMulU64 amount (castU64 (satSubI64 t now))) (castU64 ONE_DAY)

/-- The result of a successful claim: the updated proof record, the
quantity burned from the treasury vault, and the quantity transferred
from the treasury vault to the beneficiary. -/
structure ClaimOk where
  proof : Proof
  burned : Nat
  transferred : Nat
  deriving Repr, DecidableEq

/-- `process_claim` (src/processor/claim.rs): validate the supporting
accounts, compute the decay burn when the previous claim is less than
one day old, check the requested amount against the recorded balance
with a checked subtraction, update `balance` and `last_claim_at`, and
report the burn and transfer effects.  Token-program invocations are
modelled as always succeeding; their quantities are the reported
effects, committed only when the whole instruction succeeds (a returned
error reverts every effect atomically). -/
def process_claim (acc : ClaimAccounts) (proof : Proof) (now : Int)
    (amount : Nat) : Except ClaimError ClaimOk :=
  if acc.signerIsSigner = false then .error .MissingSignature
  else if acc.beneficiaryValid = false then .error .InvalidBeneficiary
  else if acc.mintValid = false then .error .InvalidMint
  else if acc.treasuryValid = false then .error .InvalidTreasury
  else if acc.treasuryTokensValid = false then .error .InvalidTreasuryTokens
  else if acc.tokenProgramValid = false then .error .InvalidTokenProgram
  else
    let t := satAddI64 proof.last_claim_at ONE_DAY
    let burned := if now < t then burnAmount t now amount else 0
    let claim_amount := if now < t then amount - burnAmount t now amount else amount
    match checkedSubU64 proof.balance amount with
    | none => .error .ClaimTooLarge
    | some newBalance =>
        .ok { proof := { proof with balance := newBalance, last_claim_at := now },
              burned := burned, transferred := claim_amount }

/-- The on-chain state a claim touches: the proof record, the token
balance of the treasury vault, and the token balance of the destination
(beneficiary) account. -/
structure World where
  proof : Proof
  treasuryVault : Nat
  beneficiary : Nat
  deriving Repr, DecidableEq

/-- One claim instruction against the world: on success the proof record
is replaced, the burned and transferred quantities leave the treasury
vault, and the transferred quantity reaches the beneficiary; on error
the host runtime reverts the instruction atomically and the world is
unchanged. -/
def claimStep (acc : ClaimAccounts) (w : World) (now : Int) (amount : Nat) :
    World :=
  match process_claim acc w.proof now amount with
  | .error _ => w
  | .ok r =>
      { proof := r.proof,
        treasuryVault := w.treasuryVault - (r.burned + r.transferred),
        beneficiary := w.beneficiary + r.transferred }

/-! ## Register (src/processor/register.rs) -/

/-- Errors surfaced by `process_register`: the distinct loader errors. -/
inductive RegisterError where
  | MissingSignature
  | AccountAlreadyInitialized
  | InvalidSeeds
  | InvalidSystemProgram
  | InvalidSlotHashes
  deriving Repr, DecidableEq

/-- The accounts handed to `process_register`, reduced to what the
instruction inspects: the signer's key and signature flag, the target
proof account's address, the caller-supplied bump (`RegisterArgs`), the
validity flags of the system program and the slot-hashes sysvar
(modelled from the spec: load_program and load_sysvar, code of this
repository not under src/, check each is the expected well-known
account), and the raw data of the slot-hashes sysvar account. -/
structure RegisterAccounts where
  signerKey : Bytes
  signerIsSigner : Bool
  proofKey : Nat
  bump : Nat
  systemProgramValid : Bool
  slotHashesValid : Bool
  slotHashesData : Bytes
  deriving Repr, DecidableEq

/-- Modelled from the spec: `load_uninitialized_pda` (crate::loaders,
not under src/) fails if the target address already holds an initialized
record, and fails if the address derived from the given seeds and the
caller-supplied bump under the program identity does not reproduce the
target address; an invalid bump is rejected, never corrected.  The
host's address-derivation rule is passed in as `pda`. -/
def load_uninitialized_pda (pda : List Bytes → Nat → Option Nat)
    (existing : Option Proof) (seeds : List Bytes) (bump : Nat)
    (key : Nat) : Except RegisterError Unit :=
  if existing.isSome then .error .AccountAlreadyInitialized
  else if pda seeds bump = some key then .ok ()
  else .error .InvalidSeeds

/-- The bytes hashed to seed the challenge in `process_register`:
`signer.key` followed by `slot_hashes_info.data[0..size_of::<SlotHash>()]`,
i.e. the first 40 bytes of the raw slot-hashes sysvar account data. -/
def challengeHashedBytes (signerKey slotHashesData : Bytes) : Bytes :=
  signerKey ++ slotHashesData.take 40

/-- Modelled from the spec: the freshest entry of the randomness beacon.
The slot-hashes sysvar account data is the serialized entry vector: an
8-byte little-endian entry count followed by 40-byte entries (8-byte
slot number, 32-byte hash), freshest first; the freshest entry is
therefore bytes 8..48 of the account data. -/
def freshestSlotHashEntry (slotHashesData : Bytes) : Bytes :=
  (slotHashesData.drop 8).take 40

/-- Modelled from the spec: the bytes the spec says are hashed to seed
the challenge — the authorizing identity's 32-byte key concatenated with
the freshest randomness-beacon entry, and nothing else. -/
def specChallengeHashedBytes (signerKey slotHashesData : Bytes) : Bytes :=
  signerKey ++ freshestSlotHashEntry slotHashesData

/-- The proof record as `process_register` leaves it.  `create_pda`
allocates the account with zeroed data, so every field not assigned by
the source keeps the value zero; the source assigns `authority`,
`balance`, `challenge`, `last_hash`, `last_hash_at`, `last_stake_at`,
`total_hashes` and `total_rewards`, and assigns nothing to
`last_claim_at`.  `hashv` is the blake3 hash (external to the
repository), passed in as a function from the hashed bytes to the
32-byte digest. -/
def initProof (hashv : Bytes → Bytes) (signerKey slotHashesData : Bytes)
    (now : Int) : Proof :=
  { authority := signerKey,
    balance := 0,
    challenge := hashv (challengeHashedBytes signerKey slotHashesData),
    last_hash := List.replicate 32 0,
    last_hash_at := now,
    last_stake_at := now,
    last_claim_at := 0,
    total_hashes := 0,
    total_rewards := 0 }

/-- `process_register` (src/processor/register.rs): validate the signer,
the target proof account (uninitialized, and its address reproduced by
the supplied bump under the seeds `(b"proof", signer.key)`), the system
program and the slot-hashes sysvar; then create the account and populate
the record.  `existing` is the record currently held at the target
address, if any. -/
def process_register (hashv : Bytes → Bytes)
    (pda : List Bytes → Nat → Option Nat) (existing : Option Proof)
    (acc : RegisterAccounts) (now : Int) : Except RegisterError Proof :=
  if acc.signerIsSigner = false then .error .MissingSignature
  else
    match load_uninitialized_pda pda existing [PROOF_SEED, acc.signerKey]
        acc.bump acc.proofKey with
    | .error e => .error e
    | .ok _ =>
        if acc.systemProgramValid = false then .error .InvalidSystemProgram
        else if acc.slotHashesValid = false then .error .InvalidSlotHashes
        else .ok (initProof hashv acc.signerKey acc.slotHashesData now)

/-- One register instruction against the target proof account: on
success the new record is written; on error the instruction reverts
atomically and the account is unchanged. -/
def registerStep (hashv : Bytes → Bytes)
    (pda : List Bytes → Nat → Option Nat) (existing : Option Proof)
    (acc : RegisterAccounts) (now : Int) : Option Proof :=
  match process_register hashv pda existing acc now with
  | .error _ => existing
  | .ok p => some p

/-! ## Fixtures for concrete runs -/

/-- A fully valid claim account set; its signer key `[1]` deliberately
differs from `proofFix.authority`. -/
def accFix : ClaimAccounts :=
  { signerKey := [1], signerIsSigner := true, beneficiaryValid := true,
    mintValid := true, treasuryValid := true, treasuryTokensValid := true,
    tokenProgramValid := true }

/-- A registered miner record with one Ore's worth of claimable balance
and a last claim at time zero. -/
def proofFix : Proof :=
  { authority := [2], balance := 1000000000,
    challenge := List.replicate 32 0, last_hash := List.replicate 32 0,
    last_hash_at := 0, last_stake_at := 0, last_claim_at := 0,
    total_hashes := 0, total_rewards := 0 }

/-- A world holding `proofFix` and a funded treasury vault. -/
def worldFix : World :=
  { proof := proofFix, treasuryVault := 1000000000000, beneficiary := 0 }

/-- The successful result of claiming 100000000 from `proofFix` at time
43200 (twelve hours after the last claim). -/
def rFix : ClaimOk :=
  { proof := { proofFix with balance := 900000000, last_claim_at := 43200 },
    burned := 50000000, transferred := 50000000 }

/-- A fully valid register account set targeting address 0 with bump 255. -/
def regAccFix : RegisterAccounts :=
  { signerKey := List.replicate 32 7, signerIsSigner := true, proofKey := 0,
    bump := 255, systemProgramValid := true, slotHashesValid := true,
    slotHashesData := List.range 48 }

/-! ## Helper lemmas -/

/-- Casting a value in the `i64` range that is nonnegative to `u64`
keeps its value. -/
theorem castU64_of_nonneg (x : Int) (h1 : 0 ≤ x) (h2 : x ≤ I64_MAX) :
    castU64 x = x.toNat := by
  unfold castU64
  rw [Int.emod_eq_of_lt h1 (by unfold I64_MAX at h2; omega)]

/-- On the burn path, whenever the saturated deadline lies at most one
day after the current time, the computed burn never exceeds the
requested amount, even when the multiplication saturates. -/
theorem burn_le_of_window (t now : Int) (amount : Nat)
    (h1 : now < t) (h2 : t ≤ now + 86400) :
    burnAmount t now amount ≤ amount := by
  have hsub : satSubI64 t now = t - now := by
    unfold satSubI64 I64_MIN I64_MAX; omega
  have hcast : castU64 (t - now) = (t - now).toNat :=
    castU64_of_nonneg _ (by omega) (by unfold I64_MAX; omega)
  have hdnat : (t - now).toNat ≤ 86400 := by omega
  have hone : castU64 ONE_DAY = 86400 := by decide
  unfold burnAmount satMulU64 satDivU64
  rw [hsub, hcast, hone]
  rcases le_or_lt (amount * (t - now).toNat) U64_MAX with hle | hgt
  · rw [min_eq_left hle]
    calc amount * (t - now).toNat / 86400
        ≤ amount * 86400 / 86400 :=
          Nat.div_le_div_right (Nat.mul_le_mul (le_refl amount) hdnat)
      _ = amount := Nat.mul_div_cancel amount (by norm_num)
  · rw [min_eq_right (le_of_lt hgt)]
    have hx : U64_MAX / 86400 < amount := by
      rw [Nat.div_lt_iff_lt_mul (by norm_num)]
      calc U64_MAX < amount * (t - now).toNat := hgt
        _ ≤ amount * 86400 := Nat.mul_le_mul (le_refl amount) hdnat
    exact le_of_lt hx

/-! ## Claims -/

/-- C9: the maximum per-epoch emission divides evenly by the shard
count: `BUS_EPOCH_REWARDS * BUS_COUNT = MAX_EPOCH_REWARDS`, an exact
integer division, as a static fact about the constants of consts.rs. -/
theorem bus_epoch_rewards_exact_division :
    BUS_EPOCH_REWARDS * BUS_COUNT = MAX_EPOCH_REWARDS ∧
    MAX_EPOCH_REWARDS % BUS_COUNT = 0 := by
  constructor <;> decide

/-- C1: a concrete successful claim whose signer key differs from the
proof record's `authority`: `process_claim` validates only that the
signer signed, never comparing the signer's key with the record's
authority, so the claim succeeds and debits the record. -/
theorem claim_ignores_proof_authority :
    accFix.signerKey ≠ proofFix.authority ∧
    process_claim accFix proofFix 1700000000 100000000 =
      .ok { proof := { proofFix with
                balance := 900000000,
                last_claim_at := 1700000000 },
            burned := 0, transferred := 100000000 } :=
  ⟨by decide, by rfl⟩

/-- C4: a successful registration at clock time 1700000000 leaves
`last_claim_at` at its zero-initialized value while `last_hash_at` and
`last_stake_at` are set to the registration time: `process_register`
never assigns `last_claim_at`, contradicting the claim that all three
timestamps equal the registration time. -/
theorem register_leaves_last_claim_at_zero :
    process_register id (fun _ _ => some 0) none regAccFix 1700000000 =
      .ok (initProof id regAccFix.signerKey regAccFix.slotHashesData
        1700000000) ∧
    (initProof id regAccFix.signerKey regAccFix.slotHashesData
      1700000000).last_hash_at = 1700000000 ∧
    (initProof id regAccFix.signerKey regAccFix.slotHashesData
      1700000000).last_stake_at = 1700000000 ∧
    (initProof id regAccFix.signerKey regAccFix.slotHashesData
      1700000000).last_claim_at = 0 ∧
    (0 : Int) ≠ 1700000000 := by
  refine ⟨?_, rfl, rfl, rfl, by decide⟩
  rfl

/-- C8 counterexample: at a concrete signer key and concrete slot-hashes
sysvar data, the bytes `process_register` hashes (the key followed by
the first 40 bytes of the raw sysvar data) differ from the bytes the
claim names (the key followed by the freshest beacon entry, which starts
after the 8-byte entry-count prefix); instantiating the external hash
with `id` exhibits a challenge value that is not the hash of the claimed
preimage. -/
theorem challenge_preimage_counterexample :
    (initProof id (List.replicate 32 1) (List.range 48) 0).challenge ≠
      id (specChallengeHashedBytes (List.replicate 32 1) (List.range 48)) ∧
    challengeHashedBytes (List.replicate 32 1) (List.range 48) ≠
      specChallengeHashedBytes (List.replicate 32 1) (List.range 48) := by
  constructor <;> decide

/-- C8 amended: after a successful registration the challenge is the
hash of the authorizing identity's key concatenated with the first 40
bytes of the raw slot-hashes sysvar data; writing that data as an 8-byte
entry-count prefix followed by the entry bytes, the hashed tail is the
prefix plus only the first 32 bytes of the freshest entry. -/
theorem challenge_hashes_count_prefix (hashv : Bytes → Bytes)
    (k cnt rest : Bytes) (now : Int) (h8 : cnt.length = 8) :
    (initProof hashv k (cnt ++ rest) now).challenge =
      hashv (k ++ (cnt ++ rest.take 32)) := by
  unfold initProof challengeHashedBytes
  simp only []
  congr 1
  congr 1
  rw [List.take_append_eq_append_take, h8]
  congr 1
  exact List.take_of_length_le (by omega)

/-- C8 amended witness: the amended statement at a concrete key, count
prefix, entry bytes and hash function. -/
theorem challenge_hashes_count_prefix_witness :
    (List.replicate 8 0 : Bytes).length = 8 ∧
    (initProof id (List.replicate 32 1)
        (List.replicate 8 0 ++ List.range 40) 0).challenge =
      id (List.replicate 32 1 ++
        (List.replicate 8 0 ++ (List.range 40).take 32)) :=
  ⟨by decide,
    challenge_hashes_count_prefix id (List.replicate 32 1)
      (List.replicate 8 0) (List.range 40) 0 (by decide)⟩

/-- C2: a claim whose requested amount strictly exceeds the record's
balance fails with the claim-too-large error, and the failing call
leaves the whole world — the proof record's `balance` and
`last_claim_at`, the treasury vault and the destination account —
unchanged. -/
theorem claim_too_large_rejected (acc : ClaimAccounts) (w : World)
    (now : Int) (amount : Nat)
    (hs : acc.signerIsSigner = true) (hb : acc.beneficiaryValid = true)
    (hm : acc.mintValid = true) (ht : acc.treasuryValid = true)
    (htt : acc.treasuryTokensValid = true)
    (htp : acc.tokenProgramValid = true)
    (hamt : w.proof.balance < amount) :
    process_claim acc w.proof now amount = .error .ClaimTooLarge ∧
    claimStep acc w now amount = w := by
  have hsub : checkedSubU64 w.proof.balance amount = none := by
    unfold checkedSubU64
    rw [if_neg (by omega)]
  have h1 : process_claim acc w.proof now amount = .error .ClaimTooLarge := by
    unfold process_claim
    simp [hs, hb, hm, ht, htt, htp, hsub]
  exact ⟨h1, by unfold claimStep; rw [h1]⟩

/-- C2 witness: claiming 2000000000 against a balance of 1000000000
fails with the claim-too-large error and changes nothing. -/
theorem claim_too_large_rejected_witness :
    accFix.signerIsSigner = true ∧ accFix.beneficiaryValid = true ∧
    accFix.mintValid = true ∧ accFix.treasuryValid = true ∧
    accFix.treasuryTokensValid = true ∧ accFix.tokenProgramValid = true ∧
    worldFix.proof.balance < 2000000000 ∧
    (process_claim accFix worldFix.proof 999999 2000000000 =
        .error .ClaimTooLarge ∧
      claimStep accFix worldFix 999999 2000000000 = worldFix) :=
  ⟨rfl, rfl, rfl, rfl, rfl, rfl, by decide,
    claim_too_large_rejected accFix worldFix 999999 2000000000
      rfl rfl rfl rfl rfl rfl (by decide)⟩

/-- C5: every successful claim — burn path or not — debits the record's
balance by the full requested amount (not merely the transferred
portion) and sets `last_claim_at` to the current time. -/
theorem claim_debits_full_amount (acc : ClaimAccounts) (proof : Proof)
    (now : Int) (amount : Nat) (r : ClaimOk)
    (h : process_claim acc proof now amount = .ok r) :
    r.proof.balance = proof.balance - amount ∧
    r.proof.last_claim_at = now := by
  unfold process_claim at h
  split_ifs at h
  revert h
  unfold checkedSubU64
  split_ifs with hle
  · intro h
    cases h
    exact ⟨rfl, rfl⟩
  · intro h
    cases h

/-- C5 witness: the twelve-hour claim of 100000000 against `proofFix`
succeeds on the burn path with only 50000000 transferred, yet the
balance drops by the full 100000000 and `last_claim_at` becomes the
current time. -/
theorem claim_debits_full_amount_witness :
    process_claim accFix proofFix 43200 100000000 = .ok rFix ∧
    (rFix.proof.balance = proofFix.balance - 100000000 ∧
      rFix.proof.last_claim_at = 43200) :=
  ⟨by rfl,
    claim_debits_full_amount accFix proofFix 43200 100000000 rFix (by rfl)⟩

/-- C7: a registration against a target that already holds an
initialized record, or whose caller-supplied bump does not reproduce the
address derived from the seeds `(b"proof", signer key)`, fails with an
error and leaves any existing record unchanged — the bump is rejected,
never corrected. -/
theorem register_rejects_initialized_or_bad_bump (hashv : Bytes → Bytes)
    (pda : List Bytes → Nat → Option Nat) (existing : Option Proof)
    (acc : RegisterAccounts) (now : Int)
    (h : existing.isSome = true ∨
      pda [PROOF_SEED, acc.signerKey] acc.bump ≠ some acc.proofKey) :
    (∃ e, process_register hashv pda existing acc now = .error e) ∧
    registerStep hashv pda existing acc now = existing := by
  have hfail : ∃ e, process_register hashv pda existing acc now = .error e := by
    unfold process_register load_uninitialized_pda
    by_cases hs : acc.signerIsSigner = false
    · exact ⟨.MissingSignature, by rw [if_pos hs]⟩
    rw [if_neg hs]
    rcases h with h | h
    · exact ⟨.AccountAlreadyInitialized, by rw [if_pos h]⟩
    by_cases hex : existing.isSome = true
    · exact ⟨.AccountAlreadyInitialized, by rw [if_pos hex]⟩
    exact ⟨.InvalidSeeds, by rw [if_neg hex, if_neg h]⟩
  obtain ⟨e, he⟩ := hfail
  refine ⟨⟨e, he⟩, ?_⟩
  unfold registerStep
  rw [he]

/-- C7 witness: a second registration against an address that already
holds `proofFix` fails and leaves the record in place, even though the
derivation function reproduces the target address. -/
theorem register_rejects_initialized_or_bad_bump_witness :
    ((some proofFix : Option Proof).isSome = true ∨
      (fun _ _ => some 0 : List Bytes → Nat → Option Nat)
          [PROOF_SEED, regAccFix.signerKey] regAccFix.bump ≠
        some regAccFix.proofKey) ∧
    ((∃ e, process_register id (fun _ _ => some 0) (some proofFix)
        regAccFix 0 = .error e) ∧
      registerStep id (fun _ _ => some 0) (some proofFix) regAccFix 0 =
        some proofFix) :=
  ⟨Or.inl rfl,
    register_rejects_initialized_or_bad_bump id (fun _ _ => some 0)
      (some proofFix) regAccFix 0 (Or.inl rfl)⟩

/-- C6: a successful claim made a full day or more after the previous
claim burns nothing: the balance drops by exactly the requested amount
and the full amount moves from the treasury vault to the destination. -/
theorem claim_no_burn_after_one_day (acc : ClaimAccounts) (w : World)
    (now : Int) (amount : Nat)
    (hs : acc.signerIsSigner = true) (hb : acc.beneficiaryValid = true)
    (hm : acc.mintValid = true) (ht : acc.treasuryValid = true)
    (htt : acc.treasuryTokensValid = true)
    (htp : acc.tokenProgramValid = true)
    (hnow : I64_MIN ≤ now)
    (hday : ONE_DAY ≤ now - w.proof.last_claim_at)
    (hamt : amount ≤ w.proof.balance) :
    process_claim acc w.proof now amount =
      .ok { proof := { w.proof with
                balance := w.proof.balance - amount,
                last_claim_at := now },
            burned := 0, transferred := amount } ∧
    claimStep acc w now amount =
      { proof := { w.proof with
          balance := w.proof.balance - amount,
          last_claim_at := now },
        treasuryVault := w.treasuryVault - amount,
        beneficiary := w.beneficiary + amount } := by
  have hnb : ¬ (now < satAddI64 w.proof.last_claim_at ONE_DAY) := by
    simp only [satAddI64, ONE_DAY, I64_MIN, I64_MAX] at hnow hday ⊢
    omega
  have hsub : checkedSubU64 w.proof.balance amount =
      some (w.proof.balance - amount) := by
    unfold checkedSubU64
    rw [if_pos hamt]
  have h1 : process_claim acc w.proof now amount =
      .ok { proof := { w.proof with
                balance := w.proof.balance - amount,
                last_claim_at := now },
            burned := 0, transferred := amount } := by
    unfold process_claim
    simp [hs, hb, hm, ht, htt, htp, hnb, hsub]
  refine ⟨h1, ?_⟩
  unfold claimStep
  rw [h1]
  simp

/-- C6 witness: claiming 100000000 two days after the last claim burns
nothing, debits the balance by 100000000 and delivers the full amount. -/
theorem claim_no_burn_after_one_day_witness :
    accFix.signerIsSigner = true ∧ accFix.beneficiaryValid = true ∧
    accFix.mintValid = true ∧ accFix.treasuryValid = true ∧
    accFix.treasuryTokensValid = true ∧ accFix.tokenProgramValid = true ∧
    I64_MIN ≤ (172800 : Int) ∧
    ONE_DAY ≤ (172800 : Int) - worldFix.proof.last_claim_at ∧
    100000000 ≤ worldFix.proof.balance ∧
    (process_claim accFix worldFix.proof 172800 100000000 =
        .ok { proof := { worldFix.proof with
                  balance := worldFix.proof.balance - 100000000,
                  last_claim_at := 172800 },
              burned := 0, transferred := 100000000 } ∧
      claimStep accFix worldFix 172800 100000000 =
        { proof := { worldFix.proof with
            balance := worldFix.proof.balance - 100000000,
            last_claim_at := 172800 },
          treasuryVault := worldFix.treasuryVault - 100000000,
          beneficiary := worldFix.beneficiary + 100000000 }) :=
  ⟨rfl, rfl, rfl, rfl, rfl, rfl, by decide, by decide, by decide,
    claim_no_burn_after_one_day accFix worldFix 172800 100000000
      rfl rfl rfl rfl rfl rfl (by decide) (by decide) (by decide)⟩

/-- C10: on the burn path, with the previous claim not in the future,
the computed burn never exceeds the requested amount — including when
the product saturates the `u64` multiplication — so the delivered
portion is an exact, non-saturating subtraction bounded by the amount. -/
theorem burn_never_exceeds_amount (lca now : Int) (amount : Nat)
    (hlo : I64_MIN ≤ lca) (hle : lca ≤ now)
    (hlt : now < satAddI64 lca ONE_DAY) :
    burnAmount (satAddI64 lca ONE_DAY) now amount ≤ amount ∧
    (amount - burnAmount (satAddI64 lca ONE_DAY) now amount) +
      burnAmount (satAddI64 lca ONE_DAY) now amount = amount ∧
    amount - burnAmount (satAddI64 lca ONE_DAY) now amount ≤ amount := by
  have h2 : satAddI64 lca ONE_DAY ≤ now + 86400 := by
    simp only [satAddI64, ONE_DAY, I64_MIN, I64_MAX] at hlo ⊢
    omega
  have hb := burn_le_of_window (satAddI64 lca ONE_DAY) now amount hlt h2
  exact ⟨hb, Nat.sub_add_cancel hb, Nat.sub_le amount _⟩

/-- C10 witness: the bound at a claim of the largest `u64` amount twelve
hours after the previous claim, where the multiplication saturates. -/
theorem burn_never_exceeds_amount_witness :
    I64_MIN ≤ (0 : Int) ∧ (0 : Int) ≤ 43200 ∧
    (43200 : Int) < satAddI64 0 ONE_DAY ∧
    (burnAmount (satAddI64 0 ONE_DAY) 43200 U64_MAX ≤ U64_MAX ∧
      (U64_MAX - burnAmount (satAddI64 0 ONE_DAY) 43200 U64_MAX) +
        burnAmount (satAddI64 0 ONE_DAY) 43200 U64_MAX = U64_MAX ∧
      U64_MAX - burnAmount (satAddI64 0 ONE_DAY) 43200 U64_MAX ≤ U64_MAX) :=
  ⟨by decide, by decide, by decide,
    burn_never_exceeds_amount 0 43200 U64_MAX (by decide) (by decide)
      (by decide)⟩

/-- C3 counterexample: a claim of the full `u64` range, made at elapsed
time zero (where the claimed formula says the whole amount burns),
actually burns only `U64_MAX / 86400 = 213503982334601` because the
product `amount * (one_day - elapsed)` saturates the `u64`
multiplication; the burned portion differs from
`floor(amount * (one_day - elapsed) / one_day)` and from `amount`. -/
theorem claim_decay_formula_counterexample :
    (0 : Int) ≤ 0 - proofFix.last_claim_at ∧
    0 - proofFix.last_claim_at < ONE_DAY ∧
    process_claim accFix { proofFix with balance := U64_MAX } 0 U64_MAX =
      .ok { proof := { proofFix with balance := 0 },
            burned := 213503982334601,
            transferred := 18446530569727217014 } ∧
    (213503982334601 : Nat) ≠ U64_MAX * (86400 - 0) / 86400 :=
  ⟨by decide, by decide, by rfl, by decide⟩

/-- C3 amended: whenever the product `amount * (one_day - elapsed)` fits
in a `u64` (so the saturating multiplication is exact) and the elapsed
time since the previous claim lies in `[0, one_day)`, a successful claim
burns exactly `floor(amount * (one_day - elapsed) / one_day)` and
delivers the rest. -/
theorem claim_decay_linear (acc : ClaimAccounts) (proof : Proof)
    (now : Int) (amount : Nat)
    (hs : acc.signerIsSigner = true) (hb : acc.beneficiaryValid = true)
    (hm : acc.mintValid = true) (ht : acc.treasuryValid = true)
    (htt : acc.treasuryTokensValid = true)
    (htp : acc.tokenProgramValid = true)
    (hlo : I64_MIN ≤ proof.last_claim_at)
    (hhi : proof.last_claim_at ≤ I64_MAX - ONE_DAY)
    (h0 : proof.last_claim_at ≤ now)
    (h1 : now - proof.last_claim_at < ONE_DAY)
    (hfit : amount * (ONE_DAY - (now - proof.last_claim_at)).toNat ≤ U64_MAX)
    (hamt : amount ≤ proof.balance) :
    process_claim acc proof now amount =
      .ok { proof := { proof with
                balance := proof.balance - amount,
                last_claim_at := now },
            burned :=
              amount * (ONE_DAY - (now - proof.last_claim_at)).toNat / 86400,
            transferred :=
              amount -
                amount * (ONE_DAY - (now - proof.last_claim_at)).toNat /
                  86400 } := by
  simp only [ONE_DAY, I64_MIN, I64_MAX] at hlo hhi h1 hfit ⊢
  have ht4 : satAddI64 proof.last_claim_at ONE_DAY =
      proof.last_claim_at + 86400 := by
    simp only [satAddI64, ONE_DAY, I64_MIN, I64_MAX]
    omega
  have hlt : now < satAddI64 proof.last_claim_at ONE_DAY := by
    rw [ht4]
    omega
  have hsubi : satSubI64 (satAddI64 proof.last_claim_at ONE_DAY) now =
      86400 - (now - proof.last_claim_at) := by
    rw [ht4]
    simp only [satSubI64, I64_MIN, I64_MAX]
    omega
  have hburn : burnAmount (satAddI64 proof.last_claim_at ONE_DAY) now amount
      = amount * (86400 - (now - proof.last_claim_at)).toNat / 86400 := by
    unfold burnAmount satMulU64 satDivU64
    rw [hsubi, castU64_of_nonneg _ (by omega) (by simp only [I64_MAX]; omega)]
    have hone : castU64 ONE_DAY = 86400 := by decide
    rw [hone, min_eq_left hfit]
  have hsub : checkedSubU64 proof.balance amount =
      some (proof.balance - amount) := by
    unfold checkedSubU64
    rw [if_pos hamt]
  unfold process_claim
  simp [hs, hb, hm, ht, htt, htp, hlt, hburn, hsub]

/-- C3 witness: the twelve-hour scenario — a claim of 100000000 exactly
43200 seconds after the previous claim burns exactly 50000000 and
delivers exactly 50000000. -/
theorem claim_decay_linear_witness :
    accFix.signerIsSigner = true ∧ accFix.beneficiaryValid = true ∧
    accFix.mintValid = true ∧ accFix.treasuryValid = true ∧
    accFix.treasuryTokensValid = true ∧ accFix.tokenProgramValid = true ∧
    I64_MIN ≤ proofFix.last_claim_at ∧
    proofFix.last_claim_at ≤ I64_MAX - ONE_DAY ∧
    proofFix.last_claim_at ≤ (43200 : Int) ∧
    (43200 : Int) - proofFix.last_claim_at < ONE_DAY ∧
    100000000 * (ONE_DAY - ((43200 : Int) -
      proofFix.last_claim_at)).toNat ≤ U64_MAX ∧
    100000000 ≤ proofFix.balance ∧
    process_claim accFix proofFix 43200 100000000 = .ok rFix :=
  ⟨rfl, rfl, rfl, rfl, rfl, rfl, by decide, by decide, by decide, by decide,
    by decide, by decide, by
      have h := claim_decay_linear accFix proofFix 43200 100000000
        rfl rfl rfl rfl rfl rfl (by decide) (by decide) (by decide)
        (by decide) (by decide) (by decide)
      exact h⟩
